import Mathlib

set_option autoImplicit false

/-!
Shallow embedding of the ai4sipmbda pipeline
(src/ai4sipmbda/training.py and src/ai4sipmbda/pre_project_data.py).

The label table is modelled as a list of rows, each carrying a subject
identifier and a contrast string.  Python exceptions are modelled with an
explicit error type and `Except`; dictionaries are association lists with
first-match lookup (the keys we build are distinct, so this agrees with
Python dict semantics).  The sklearn estimator interface is modelled as
explicit state passing, with predict receiving its positional arguments as
a list so that call arity is observable.
-/

namespace AISIP

/-- Python exception values raised by the embedded code. -/
inductive PyErr where
  | keyError (key : String)
  | typeError (msg : String)
  | otherError (msg : String)
deriving Repr, DecidableEq

/-- The fixed path string that do_classif loads with np.load
(training.py, line 175). -/
def classifProjectedDataPath : String :=
  "../hcp900_difumo_matrics/difumo_data.npy"

/-- The default value of the output_path command-line argument of
pre_project_data.py (lines 33-37), where the projected feature matrix is
saved. -/
def preProjectDefaultOutputPath : String :=
  "../hcp900_difumo_matrices/difumo_data.npy"

/-- pandas Series.unique as used on the contrast column: the distinct
values, in first-occurrence order. -/
def pandasUnique (l : List String) : List String :=
  l.foldl (fun acc v => if v ∈ acc then acc else acc ++ [v]) []

/-- The Python dict comprehension over enumerate: each value of `u` is
mapped to its position, as an association list value-to-index. -/
def enumDict (u : List String) : List (String × Nat) :=
  u.enum.map (fun p => (p.2, p.1))

/-- The dictionary built by preprocess_label when none is supplied
(training.py, line 37). -/
def buildYDict (contrasts : List String) : List (String × Nat) :=
  enumDict (pandasUnique contrasts)

/-- Python dict lookup d[x], as an Option. -/
def dictLookup (d : List (String × Nat)) (x : String) : Option Nat :=
  (d.find? (fun p => p.1 == x)).map (fun p => p.2)

/-- The inverse mapping of a dictionary: the key stored with a given code. -/
def invDictLookup (d : List (String × Nat)) (c : Nat) : Option String :=
  (d.find? (fun p => p.2 == c)).map (fun p => p.1)

/-- Y_t["contrast"].apply of a dict lookup (training.py, lines 43 and 45):
element-wise encoding, where a missing key raises KeyError on the first
absent value. -/
def applyYDict (d : List (String × Nat)) (l : List String) :
    Except PyErr (List Nat) :=
  match l with
  | [] => Except.ok []
  | x :: rest =>
    match dictLookup d x with
    | none => Except.error (PyErr.keyError x)
    | some k =>
      match applyYDict d rest with
      | Except.error e => Except.error e
      | Except.ok ks => Except.ok (k :: ks)

/-- preprocess_label (training.py, lines 16-45), on the contrast column of
the label table.  It always computes the encoded labels together with the
dictionary used; the return_dict flag only controls whether the caller sees
the second component, so we return both. -/
def preprocess_label (contrasts : List String)
    (use_dict : Option (List (String × Nat))) :
    Except PyErr (List Nat × List (String × Nat)) :=
  let Y_dict :=
    match use_dict with
    | none => buildYDict contrasts
    | some d => d
  match applyYDict Y_dict contrasts with
  | Except.error e => Except.error e
  | Except.ok v => Except.ok (v, Y_dict)

/-- One row of the label table: a subject identifier and a contrast value. -/
structure Row where
  subject : Nat
  contrast : String
deriving Repr, DecidableEq

/-- Y["subject"].isin(s) (training.py, lines 151-152): the boolean row mask
of membership of the subject column in a subject set. -/
def subjectMask (labels : List Row) (s : List Nat) : List Bool :=
  labels.map (fun r => decide (r.subject ∈ s))

/-- The try/except KeyError construct of do_split (training.py, lines
155-159): exactly a KeyError is caught and handed to the handler; a normal
result or any other exception is returned unchanged. -/
def catchKeyError {α : Type} (body : Except PyErr α)
    (handler : String → Except PyErr α) : Except PyErr α :=
  match body with
  | Except.error (PyErr.keyError k) => handler k
  | other => other

/-- Lines 154-159 of training.py: encode the test-set contrasts with the
dictionary built from the training subset; on KeyError log a warning (the
Bool flag records that the warning was emitted) and re-encode with an
independently built dictionary. -/
def doSplitTestLabels (labelsDict : List (String × Nat))
    (testContrasts : List String) : Except PyErr (List Nat × Bool) :=
  catchKeyError
    (match preprocess_label testContrasts (some labelsDict) with
     | Except.error e => Except.error e
     | Except.ok p => Except.ok (p.1, false))
    (fun _ =>
      match preprocess_label testContrasts none with
      | Except.error e => Except.error e
      | Except.ok p => Except.ok (p.1, true))

/-- An sklearn-style classifier, modelled as explicit state passing.  fit
updates the model state and, per the sklearn return-self convention,
returns the fitted model.  predict receives its positional arguments as a
list, so that calling it with the wrong arity is observable (a real sklearn
classifier accepts exactly one positional argument and otherwise raises
TypeError).  score takes the features and labels. -/
structure Estimator (A P S σ : Type) where
  fit : σ → A → A → σ
  predict : σ → List A → Except PyErr P
  score : σ → A → A → S

/-- AugmentedClassifier (training.py, lines 48-76): the underlying model
(its behaviour and current state) and the optional augmentation function f. -/
structure AugmentedClassifier (A P S σ : Type) where
  est : Estimator A P S σ
  state : σ
  f : Option (A → A → A × A)

/-- The Python object returned by a fit call: either the inner model object
(carrying its post-fit state) or the wrapper instance itself, which is what
the sklearn return-self convention would demand of the wrapper. -/
inductive FitReturn (σ W : Type) where
  | innerModel (s : σ)
  | self (w : W)

/-- AugmentedClassifier.fit (training.py, lines 65-70): with f absent,
return self.model.fit(X, Y); otherwise compute (X_fake, Y_fake) = f(X, Y)
and return self.model.fit(X_fake, Y_fake).  Both branches return the value
of the inner fit call. -/
def AugmentedClassifier.fitCall {A P S σ : Type}
    (c : AugmentedClassifier A P S σ) (X Y : A) :
    FitReturn σ (AugmentedClassifier A P S σ) :=
  match c.f with
  | none => FitReturn.innerModel (c.est.fit c.state X Y)
  | some f =>
    let fake := f X Y
    FitReturn.innerModel (c.est.fit c.state fake.1 fake.2)

/-- AugmentedClassifier.predict (training.py, lines 72-73): the method
takes X and y and calls self.model.predict(X, y) with the two positional
arguments. -/
def AugmentedClassifier.predictCall {A P S σ : Type}
    (c : AugmentedClassifier A P S σ) (X y : A) : Except PyErr P :=
  c.est.predict c.state [X, y]

/-- AugmentedClassifier.score (training.py, lines 75-76): pass-through of
(X, y) to self.model.score. -/
def AugmentedClassifier.scoreCall {A P S σ : Type}
    (c : AugmentedClassifier A P S σ) (X y : A) : S :=
  c.est.score c.state X y

/-- The predict method of an sklearn classifier: it accepts exactly one
positional argument and raises TypeError for any other arity. -/
def sklearnPredict {A P σ : Type} (g : σ → A → P) :
    σ → List A → Except PyErr P :=
  fun s args =>
    match args with
    | [x] => Except.ok (g s x)
    | _ => Except.error (PyErr.typeError "predict takes one positional argument")

/-- A concrete sklearn-conforming classifier used to evaluate the wrapper
at a specific input: stateless, predict is the successor function on its
single array argument, score adds its two arguments. -/
def demoEstimator : Estimator Nat Nat Nat Unit :=
  ⟨fun s _ _ => s, sklearnPredict (fun _ x => x + 1), fun _ x y => x + y⟩

/-- Modelled library code: one step of a linear congruential pseudo-random
generator, standing in for the numpy PRNG inside sklearn ShuffleSplit.  All
that matters for the driver is that it is a pure function of the seed. -/
def lcgNext (s : Nat) : Nat := (1103515245 * s + 12345) % 2147483648

/-- Modelled library code: draw all elements of the pool in a
pseudo-random order determined by the seed. -/
def drawAll (seed : Nat) : List Nat → List Nat
  | [] => []
  | x :: rest =>
    let pool := x :: rest
    let i := seed % pool.length
    pool.get ⟨i, Nat.mod_lt _ (Nat.succ_pos rest.length)⟩ ::
      drawAll (lcgNext seed) (pool.eraseIdx i)
termination_by pool => pool.length
decreasing_by
  have h : seed % (rest.length + 1) < rest.length + 1 :=
    Nat.mod_lt _ (Nat.succ_pos rest.length)
  simp only [List.length_eraseIdx, List.length_cons, if_pos h]
  omega

/-- Modelled library code: one ShuffleSplit iteration over indices
0 .. n-1 with an absolute train size: permute the indices pseudo-randomly
from the seed and cut the permutation into train and test parts. -/
def shuffleSplitOne (n nTrain seed : Nat) : List Nat × List Nat :=
  let perm := drawAll seed (List.range n)
  (perm.take nTrain, perm.drop nTrain)

/-- Modelled library code: sklearn ShuffleSplit(n_splits, train_size,
random_state).split over n indices — a deterministic function of
(n, n_splits, train_size, random_state) only, producing one (train, test)
index pair per split. -/
def shuffleSplit (n nSplits nTrain randomState : Nat) :
    List (List Nat × List Nat) :=
  (List.range nSplits).map
    (fun j => shuffleSplitOne n nTrain ((lcgNext^[j + 1]) randomState))

/-- labels["subject"].unique() (training.py, line 177): the distinct
subject identifiers in first-occurrence order. -/
def uniqueSubjects (labels : List Row) : List Nat :=
  (labels.map (fun r => r.subject)).foldl
    (fun acc v => if v ∈ acc then acc else acc ++ [v]) []

/-- The split generation of do_classif (training.py, lines 177-180 and
195): ShuffleSplit is constructed with n_splits, train_size and the fixed
random_state 0, and applied to range(len(subjects)). -/
def doClassifSplits (labels : List Row) (nSplits trainSize : Nat) :
    List (List Nat × List Nat) :=
  shuffleSplit (uniqueSubjects labels).length nSplits trainSize 0

/-- The fixed model catalog of do_classif (training.py, lines 123-126):
an LDA and an RF classifier, identified here by their display names. -/
def modelCatalog : List String := ["LDA", "RF"]

/-- One row of the results table accumulated by do_classif
(training.py, line 198). -/
structure ScoreRow (S : Type) where
  method_name : String
  algo : String
  score : S
  split : Nat
deriving Repr, DecidableEq

/-- The column names of the results DataFrame (training.py, line 201). -/
def resultColumns : List String := ["method_name", "algo", "score", "split"]

/-- The results table built by do_classif (training.py, lines 172-202) and
written once at the end of the run: for each catalog model, one row per
split, in loop order.  The score of a (model, split) pair is abstracted by
scoreFn, since it comes from fitting an opaque statistical model in
do_split; the table shape does not depend on it. -/
def doClassifTable {S : Type} (methodName : String)
    (scoreFn : String → Nat → S) (labels : List Row)
    (nSplits trainSize : Nat) : List (ScoreRow S) :=
  modelCatalog.flatMap
    (fun name =>
      (doClassifSplits labels nSplits trainSize).enum.map
        (fun p => ⟨methodName, name, scoreFn name p.1, p.1⟩))

/-- Specification-side characterization of first-occurrence order, written
from the spec wording: the first element is kept, and the rest is the
first-occurrence enumeration of the tail with that element removed.  Used
to state what pandasUnique computes. -/
def specFirstOccUnique : List String → List String
  | [] => []
  | x :: l => x :: specFirstOccUnique (l.filter (fun y => decide (y ≠ x)))
termination_by l => l.length
decreasing_by
  exact Nat.lt_succ_of_le (List.length_filter_le _ _)

/-- Proof infrastructure: enumDict with the enumeration starting at a
given offset. -/
def enumDictFrom (i : Nat) (u : List String) : List (String × Nat) :=
  (u.enumFrom i).map (fun p => (p.2, p.1))

theorem enumDict_eq_from (u : List String) : enumDict u = enumDictFrom 0 u := rfl

theorem enumDictFrom_cons (i : Nat) (a : String) (u : List String) :
    enumDictFrom i (a :: u) = (a, i) :: enumDictFrom (i + 1) u := rfl

theorem dictLookup_enumDictFrom {u : List String} :
    ∀ {i x k}, dictLookup (enumDictFrom i u) x = some k →
      i ≤ k ∧ u.get? (k - i) = some x := by
  induction u with
  | nil =>
    intro i x k h
    simp [dictLookup, enumDictFrom, List.enumFrom] at h
  | cons a u ih =>
    intro i x k h
    rw [enumDictFrom_cons] at h
    unfold dictLookup at h
    by_cases hax : ((a, i).1 == x) = true
    · have hfind : List.find? (fun p => p.1 == x)
          ((a, i) :: enumDictFrom (i + 1) u) = some (a, i) :=
        List.find?_cons_of_pos _ hax
      rw [hfind] at h
      obtain rfl : i = k := by simpa using h
      have hx : a = x := by simpa using hax
      simp [hx]
    · have hfind : List.find? (fun p => p.1 == x)
          ((a, i) :: enumDictFrom (i + 1) u)
          = List.find? (fun p => p.1 == x) (enumDictFrom (i + 1) u) :=
        List.find?_cons_of_neg _ hax
      rw [hfind] at h
      have h2 := ih h
      refine ⟨by omega, ?_⟩
      have hk : k - i = (k - (i + 1)) + 1 := by omega
      rw [hk]
      simpa using h2.2

theorem invDictLookup_enumDictFrom {u : List String} :
    ∀ {i c}, invDictLookup (enumDictFrom i u) c =
      if i ≤ c then u.get? (c - i) else none := by
  induction u with
  | nil =>
    intro i c
    simp [invDictLookup, enumDictFrom, List.enumFrom]
  | cons a u ih =>
    intro i c
    rw [enumDictFrom_cons]
    unfold invDictLookup
    by_cases hic : ((a, i).2 == c) = true
    · obtain rfl : i = c := by simpa using hic
      have hfind : List.find? (fun p => p.2 == i)
          ((a, i) :: enumDictFrom (i + 1) u) = some (a, i) :=
        List.find?_cons_of_pos _ hic
      rw [hfind]
      simp
    · have hfind : List.find? (fun p => p.2 == c)
          ((a, i) :: enumDictFrom (i + 1) u)
          = List.find? (fun p => p.2 == c) (enumDictFrom (i + 1) u) :=
        List.find?_cons_of_neg _ hic
      rw [hfind]
      have hine : i ≠ c := by simpa using hic
      have h2 := ih (i := i + 1) (c := c)
      unfold invDictLookup at h2
      rw [h2]
      rcases Nat.lt_trichotomy c i with hlt | heq | hgt
      · rw [if_neg (by omega), if_neg (by omega)]
      · exact absurd heq.symm hine
      · rw [if_pos (by omega), if_pos (by omega)]
        have hc : c - i = (c - (i + 1)) + 1 := by omega
        rw [hc]
        simp

theorem dictLookup_enumDictFrom_isSome {u : List String} :
    ∀ {i x}, x ∈ u → (dictLookup (enumDictFrom i u) x).isSome := by
  induction u with
  | nil => intro i x h; cases h
  | cons a u ih =>
    intro i x h
    rw [enumDictFrom_cons]
    unfold dictLookup
    by_cases hax : ((a, i).1 == x) = true
    · have hfind : List.find? (fun p => p.1 == x)
          ((a, i) :: enumDictFrom (i + 1) u) = some (a, i) :=
        List.find?_cons_of_pos _ hax
      rw [hfind]
      simp
    · have hfind : List.find? (fun p => p.1 == x)
          ((a, i) :: enumDictFrom (i + 1) u)
          = List.find? (fun p => p.1 == x) (enumDictFrom (i + 1) u) :=
        List.find?_cons_of_neg _ hax
      rw [hfind]
      have hne : a ≠ x := by simpa using hax
      rcases List.mem_cons.mp h with rfl | hmem
      · exact absurd rfl hne
      · exact ih hmem

theorem dictLookup_enumDict_get {u : List String} {x : String} {k : Nat}
    (h : dictLookup (enumDict u) x = some k) : u.get? k = some x := by
  rw [enumDict_eq_from] at h
  have h2 := dictLookup_enumDictFrom h
  simpa using h2.2

theorem invDictLookup_enumDict (u : List String) (c : Nat) :
    invDictLookup (enumDict u) c = u.get? c := by
  rw [enumDict_eq_from, invDictLookup_enumDictFrom]
  simp

theorem dictLookup_enumDict_isSome {u : List String} {x : String}
    (h : x ∈ u) : (dictLookup (enumDict u) x).isSome := by
  rw [enumDict_eq_from]
  exact dictLookup_enumDictFrom_isSome h

theorem specFirstOccUnique_cons (x : String) (l : List String) :
    specFirstOccUnique (x :: l)
      = x :: specFirstOccUnique (l.filter (fun y => decide (y ≠ x))) := by
  rw [specFirstOccUnique]

theorem pandasUnique_foldl (l : List String) : ∀ acc : List String,
    l.foldl (fun acc v => if v ∈ acc then acc else acc ++ [v]) acc
      = acc ++ specFirstOccUnique (l.filter (fun y => decide (y ∉ acc))) := by
  induction l with
  | nil =>
    intro acc
    simp [specFirstOccUnique]
  | cons x l ih =>
    intro acc
    simp only [List.foldl_cons, List.filter_cons]
    by_cases hx : x ∈ acc
    · rw [if_pos hx]
      have hd : decide (x ∉ acc) = false := by simp [hx]
      rw [hd]
      simp only [Bool.false_eq_true, if_false]
      exact ih acc
    · rw [if_neg hx]
      have hd : decide (x ∉ acc) = true := by simp [hx]
      rw [hd]
      simp only [if_true]
      rw [ih (acc ++ [x]), specFirstOccUnique_cons, List.append_assoc,
        List.singleton_append]
      have hff : l.filter (fun y => decide (y ∉ acc ++ [x]))
          = (l.filter (fun y => decide (y ∉ acc))).filter
              (fun y => decide (y ≠ x)) := by
        rw [List.filter_filter]
        apply List.filter_congr
        intro a _
        by_cases h1 : a ∈ acc <;> by_cases h2 : a = x <;>
          simp [h1, h2, List.mem_append]
      rw [hff]

theorem pandasUnique_eq_spec (l : List String) :
    pandasUnique l = specFirstOccUnique l := by
  unfold pandasUnique
  rw [pandasUnique_foldl l []]
  have hfl : l.filter (fun y => decide (y ∉ ([] : List String))) = l := by
    apply List.filter_eq_self.mpr
    intro a _
    simp
  rw [hfl, List.nil_append]

theorem mem_specFirstOccUnique (l : List String) (x : String) :
    x ∈ specFirstOccUnique l ↔ x ∈ l := by
  induction l using specFirstOccUnique.induct with
  | case1 => simp [specFirstOccUnique]
  | case2 a l ih =>
    rw [specFirstOccUnique_cons]
    by_cases hxa : x = a
    · simp [hxa]
    · simp only [List.mem_cons, ih, List.mem_filter]
      constructor
      · rintro (rfl | ⟨h, _⟩)
        · exact absurd rfl hxa
        · exact Or.inr h
      · rintro (rfl | h)
        · exact absurd rfl hxa
        · exact Or.inr ⟨h, by simpa using hxa⟩

theorem mem_pandasUnique {cs : List String} {x : String} (h : x ∈ cs) :
    x ∈ pandasUnique cs := by
  rw [pandasUnique_eq_spec]
  exact (mem_specFirstOccUnique _ _).mpr h

theorem applyYDict_ok (d : List (String × Nat)) :
    ∀ l : List String, (∀ x ∈ l, (dictLookup d x).isSome) →
      ∃ codes, applyYDict d l = Except.ok codes ∧ codes.length = l.length := by
  intro l
  induction l with
  | nil => exact fun _ => ⟨[], rfl, rfl⟩
  | cons x rest ih =>
    intro h
    have hx := h x (List.mem_cons_self x rest)
    obtain ⟨k, hk⟩ := Option.isSome_iff_exists.mp hx
    obtain ⟨codes, hc, hlen⟩ := ih (fun y hy => h y (List.mem_cons_of_mem _ hy))
    refine ⟨k :: codes, ?_, by simp [hlen]⟩
    simp [applyYDict, hk, hc]

theorem applyYDict_roundtrip_aux (d : List (String × Nat)) :
    ∀ l : List String, (∀ x ∈ l, (dictLookup d x).isSome) →
      (∀ x ∈ l, ∀ k, dictLookup d x = some k → invDictLookup d k = some x) →
      ∃ codes, applyYDict d l = Except.ok codes ∧
        codes.map (invDictLookup d) = l.map (fun x => some x) := by
  intro l
  induction l with
  | nil => exact fun _ _ => ⟨[], rfl, rfl⟩
  | cons x rest ih =>
    intro hsome hinv
    have hx := hsome x (List.mem_cons_self x rest)
    obtain ⟨k, hk⟩ := Option.isSome_iff_exists.mp hx
    obtain ⟨codes, hc, hmap⟩ :=
      ih (fun y hy => hsome y (List.mem_cons_of_mem _ hy))
        (fun y hy => hinv y (List.mem_cons_of_mem _ hy))
    refine ⟨k :: codes, by simp [applyYDict, hk, hc], ?_⟩
    simp only [List.map_cons, hmap]
    rw [hinv x (List.mem_cons_self x rest) k hk]

theorem applyYDict_error_of_missing (d : List (String × Nat)) :
    ∀ l : List String, (∃ x ∈ l, dictLookup d x = none) →
      ∃ k, applyYDict d l = Except.error (PyErr.keyError k) ∧
        dictLookup d k = none := by
  intro l
  induction l with
  | nil => rintro ⟨x, hx, _⟩; cases hx
  | cons x rest ih =>
    rintro ⟨x0, hx0, hnone⟩
    cases hlook : dictLookup d x with
    | none => exact ⟨x, by simp [applyYDict, hlook], hlook⟩
    | some v =>
      have hx0r : x0 ∈ rest := by
        rcases List.mem_cons.mp hx0 with rfl | h
        · rw [hlook] at hnone; cases hnone
        · exact h
      obtain ⟨k, hk, hknone⟩ := ih ⟨x0, hx0r, hnone⟩
      exact ⟨k, by simp [applyYDict, hlook, hk], hknone⟩

theorem buildYDict_isSome {cs : List String} {x : String} (h : x ∈ cs) :
    (dictLookup (buildYDict cs) x).isSome := by
  unfold buildYDict
  exact dictLookup_enumDict_isSome (mem_pandasUnique h)

theorem preprocess_label_none_ok (cs : List String) :
    ∃ codes, preprocess_label cs none = Except.ok (codes, buildYDict cs) ∧
      codes.length = cs.length := by
  obtain ⟨codes, hok, hlen⟩ :=
    applyYDict_ok (buildYDict cs) cs (fun x hx => buildYDict_isSome hx)
  exact ⟨codes, by simp [preprocess_label, hok], hlen⟩

theorem preprocess_label_some_error (d : List (String × Nat))
    (cs : List String) (h : ∃ x ∈ cs, dictLookup d x = none) :
    ∃ k, preprocess_label cs (some d) = Except.error (PyErr.keyError k) ∧
      dictLookup d k = none := by
  obtain ⟨k, hk, hknone⟩ := applyYDict_error_of_missing d cs h
  exact ⟨k, by simp [preprocess_label, hk], hknone⟩

/-- Claim C1: the claim states that the fixed path string loaded by
do_classif with np.load equals the pre-projection driver's default output
path for difumo_data.npy.  On the code the two strings differ — do_classif
reads from a directory spelled matrics while pre_project_data.py writes to
matrices by default — so the stated on-disk hand-off path equality fails;
this contradicts the documented integration contract, a code bug. -/
theorem c1_handoff_paths_differ :
    classifProjectedDataPath ≠ preProjectDefaultOutputPath := by
  decide

/-- Claim C2, evaluated at a concrete input: AugmentedClassifier.predict is
not a pass-through of the underlying predict on X alone.  The method takes
a second argument y and calls the underlying predict with two positional
arguments, so with an sklearn-conforming model, whose predict accepts
exactly one positional argument, it yields a TypeError instead of the
underlying prediction on X; score, in contrast, is a pure pass-through of
(X, y). -/
theorem c2_predict_not_pass_through :
    (AugmentedClassifier.mk demoEstimator () none).predictCall 3 7
      = Except.error (PyErr.typeError "predict takes one positional argument") ∧
    demoEstimator.predict () [3] = Except.ok 4 ∧
    (AugmentedClassifier.mk demoEstimator () none).predictCall 3 7
      ≠ demoEstimator.predict () [3] ∧
    (AugmentedClassifier.mk demoEstimator () none).scoreCall 3 7
      = demoEstimator.score () 3 7 := by
  refine ⟨rfl, rfl, ?_, rfl⟩
  intro h
  exact Except.noConfusion h

/-- Claim C3, evaluated at a concrete input: with f = None the wrapper is
not identical to using the wrapped model directly.  fit and score do
delegate exactly — fit returns the inner fit result on (X, Y) and score
the inner score on (X, y) — but predict does not: the method takes a
second argument and forwards both to the inner predict, so against an
sklearn-conforming model (predict accepting exactly one positional
argument) direct use m.predict(X) returns the prediction while no call of
the wrapper, whatever second argument is passed, reproduces it; every such
call yields TypeError.  The claimed fit/predict/score identity fails on
the code — the same predict-signature slip as claim C2, a code bug. -/
theorem c3_none_wrapper_not_identical :
    (AugmentedClassifier.mk demoEstimator () none).fitCall 1 2
        = FitReturn.innerModel (demoEstimator.fit () 1 2) ∧
    (AugmentedClassifier.mk demoEstimator () none).scoreCall 3 7
        = demoEstimator.score () 3 7 ∧
    demoEstimator.predict () [5] = Except.ok 6 ∧
    (∀ y : Nat, (AugmentedClassifier.mk demoEstimator () none).predictCall 5 y
        = Except.error (PyErr.typeError "predict takes one positional argument")) ∧
    (∀ y : Nat, (AugmentedClassifier.mk demoEstimator () none).predictCall 5 y
        ≠ demoEstimator.predict () [5]) :=
  ⟨rfl, rfl, rfl, fun _ => rfl, fun _ h => Except.noConfusion h⟩

/-- Claim C6: the split generation of do_classif is a function of the
subject count, n_splits and train_size only, because ShuffleSplit is
constructed with the fixed random_state 0 — two runs on label tables with
the same number of distinct subjects produce identical train/test
partitions. -/
theorem c6_split_determinism (labels1 labels2 : List Row)
    (nSplits trainSize : Nat)
    (h : (uniqueSubjects labels1).length = (uniqueSubjects labels2).length) :
    doClassifSplits labels1 nSplits trainSize
      = doClassifSplits labels2 nSplits trainSize := by
  unfold doClassifSplits
  rw [h]

/-- Concrete run of c6_split_determinism: two different label tables with
two distinct subjects each yield the same splits. -/
theorem c6_split_determinism_witness :
    (uniqueSubjects [⟨1, "A"⟩, ⟨2, "B"⟩]).length
        = (uniqueSubjects [⟨5, "C"⟩, ⟨6, "C"⟩, ⟨5, "D"⟩]).length ∧
    doClassifSplits [⟨1, "A"⟩, ⟨2, "B"⟩] 5 1
        = doClassifSplits [⟨5, "C"⟩, ⟨6, "C"⟩, ⟨5, "D"⟩] 5 1 :=
  ⟨by decide, c6_split_determinism _ _ 5 1 (by decide)⟩

/-- Claim C7: the train and test row masks of do_split are computed by
membership of the subject column; for disjoint train/test subject sets
the masks are pointwise disjoint, and their pointwise union marks exactly
the rows whose subject lies in the union of the two subject sets — no
row is in both masks and no subject's rows split across them. -/
theorem c7_masks_disjoint_union (labels : List Row) (tr te : List Nat)
    (h : ∀ s, s ∈ tr → s ∉ te) :
    List.zipWith (fun a b => a && b) (subjectMask labels tr)
        (subjectMask labels te) = List.replicate labels.length false ∧
    List.zipWith (fun a b => a || b) (subjectMask labels tr)
        (subjectMask labels te)
      = labels.map (fun r => decide (r.subject ∈ tr ∨ r.subject ∈ te)) := by
  constructor
  · induction labels with
    | nil => rfl
    | cons r rest ih =>
      have hr : (decide (r.subject ∈ tr) && decide (r.subject ∈ te)) = false := by
        by_cases htr : r.subject ∈ tr
        · simp [htr, h _ htr]
        · simp [htr]
      simpa [subjectMask, List.replicate_succ, hr] using ih
  · induction labels with
    | nil => rfl
    | cons r rest ih =>
      have hr : (decide (r.subject ∈ tr) || decide (r.subject ∈ te))
          = decide (r.subject ∈ tr ∨ r.subject ∈ te) := by
        by_cases h1 : r.subject ∈ tr <;> by_cases h2 : r.subject ∈ te <;>
          simp [h1, h2]
      simp only [subjectMask, List.map_cons, List.zipWith_cons_cons, hr]
      exact congrArg (List.cons _) (by simpa only [subjectMask] using ih)

/-- Concrete run of c7_masks_disjoint_union on a three-row table with
train subjects a singleton 1 and test subjects a singleton 3. -/
theorem c7_masks_disjoint_union_witness :
    (∀ s, s ∈ [1] → s ∉ [3]) ∧
    (List.zipWith (fun a b => a && b)
        (subjectMask [⟨1, "A"⟩, ⟨2, "B"⟩, ⟨3, "C"⟩] [1])
        (subjectMask [⟨1, "A"⟩, ⟨2, "B"⟩, ⟨3, "C"⟩] [3])
      = List.replicate ([⟨1, "A"⟩, ⟨2, "B"⟩, (⟨3, "C"⟩ : Row)] : List Row).length false ∧
    List.zipWith (fun a b => a || b)
        (subjectMask [⟨1, "A"⟩, ⟨2, "B"⟩, ⟨3, "C"⟩] [1])
        (subjectMask [⟨1, "A"⟩, ⟨2, "B"⟩, ⟨3, "C"⟩] [3])
      = ([⟨1, "A"⟩, ⟨2, "B"⟩, ⟨3, "C"⟩] : List Row).map
          (fun r => decide (r.subject ∈ [1] ∨ r.subject ∈ [3]))) :=
  ⟨by decide, c7_masks_disjoint_union _ _ _ (by decide)⟩

/-- Claim C10: AugmentedClassifier.fit returns the value of the underlying
model's fit call — the fitted inner model object — in both the f = None
branch and the augmentation branch, and never the wrapper instance itself,
so callers relying on the sklearn return-self convention receive the inner
model instead of the wrapper. -/
theorem c10_fit_returns_inner {A P S σ : Type} (est : Estimator A P S σ)
    (s : σ) (f : Option (A → A → A × A)) (X Y : A) :
    (AugmentedClassifier.mk est s none).fitCall X Y
        = FitReturn.innerModel (est.fit s X Y) ∧
    (∀ g : A → A → A × A, (AugmentedClassifier.mk est s (some g)).fitCall X Y
        = FitReturn.innerModel (est.fit s (g X Y).1 (g X Y).2)) ∧
    (∀ w, (AugmentedClassifier.mk est s f).fitCall X Y ≠ FitReturn.self w) := by
  refine ⟨rfl, fun g => rfl, fun w h => ?_⟩
  cases f with
  | none => exact FitReturn.noConfusion h
  | some g => exact FitReturn.noConfusion h

/-- Concrete run of c10_fit_returns_inner with the demo estimator. -/
theorem c10_fit_returns_inner_witness :
    (AugmentedClassifier.mk demoEstimator () none).fitCall 1 2
        = FitReturn.innerModel (demoEstimator.fit () 1 2) ∧
    (∀ g : Nat → Nat → Nat × Nat,
        (AugmentedClassifier.mk demoEstimator () (some g)).fitCall 1 2
        = FitReturn.innerModel (demoEstimator.fit () (g 1 2).1 (g 1 2).2)) ∧
    (∀ w, (AugmentedClassifier.mk demoEstimator () none).fitCall 1 2
        ≠ FitReturn.self w) :=
  c10_fit_returns_inner demoEstimator () none 1 2

/-- Claim C4: when the test subset holds a contrast value absent from the
training-built dictionary, preprocess_label raises a KeyError for such a
value; do_split catches exactly that exception, logs a warning (the Bool
flag), and re-encodes the test labels with an independently built
dictionary so the run continues; the catching construct returns any
non-KeyError exception to the caller unchanged. -/
theorem c4_keyerror_caught_and_fallback (labelsDict : List (String × Nat))
    (testContrasts : List String)
    (h : ∃ x ∈ testContrasts, dictLookup labelsDict x = none) :
    (∃ k, preprocess_label testContrasts (some labelsDict)
        = Except.error (PyErr.keyError k) ∧ dictLookup labelsDict k = none) ∧
    (∃ codes, preprocess_label testContrasts none
        = Except.ok (codes, buildYDict testContrasts) ∧
      doSplitTestLabels labelsDict testContrasts = Except.ok (codes, true)) ∧
    (∀ (α : Type) (e : PyErr) (handler : String → Except PyErr α),
        (∀ k, e ≠ PyErr.keyError k) →
        catchKeyError (Except.error e) handler = Except.error e) := by
  obtain ⟨k, hk, hknone⟩ := preprocess_label_some_error labelsDict testContrasts h
  obtain ⟨codes, hok, _⟩ := preprocess_label_none_ok testContrasts
  refine ⟨⟨k, hk, hknone⟩, ⟨codes, hok, ?_⟩, ?_⟩
  · simp [doSplitTestLabels, catchKeyError, hk, hok]
  · intro α e handler hne
    cases e with
    | keyError k2 => exact absurd rfl (hne k2)
    | typeError m => rfl
    | otherError m => rfl

/-- Concrete run of c4_keyerror_caught_and_fallback: training dictionary
maps only A, the test set holds A and D. -/
theorem c4_keyerror_caught_and_fallback_witness :
    (∃ x ∈ ["A", "D"], dictLookup [("A", 0)] x = none) ∧
    ((∃ k, preprocess_label ["A", "D"] (some [("A", 0)])
        = Except.error (PyErr.keyError k) ∧ dictLookup [("A", 0)] k = none) ∧
    (∃ codes, preprocess_label ["A", "D"] none
        = Except.ok (codes, buildYDict ["A", "D"]) ∧
      doSplitTestLabels [("A", 0)] ["A", "D"] = Except.ok (codes, true)) ∧
    (∀ (α : Type) (e : PyErr) (handler : String → Except PyErr α),
        (∀ k, e ≠ PyErr.keyError k) →
        catchKeyError (Except.error e) handler = Except.error e)) :=
  ⟨by decide, c4_keyerror_caught_and_fallback [("A", 0)] ["A", "D"] (by decide)⟩

/-- Claim C5: with no dictionary supplied, preprocess_label builds the
dictionary by enumerating the distinct contrast values in first-occurrence
order with consecutive codes starting at 0 (buildYDict is the enumeration
of the spec-side first-occurrence list), the encoding always succeeds with
one code per input row in row order, and on the contrast sequence
A, B, A, C it returns the codes 0, 1, 0, 2 with the dictionary mapping
A to 0, B to 1 and C to 2. -/
theorem c5_first_occurrence_encoding :
    (∀ l : List String,
        buildYDict l = (specFirstOccUnique l).enum.map (fun p => (p.2, p.1))) ∧
    (∀ l : List String, ∃ codes,
        preprocess_label l none = Except.ok (codes, buildYDict l) ∧
        codes.length = l.length) ∧
    preprocess_label ["A", "B", "A", "C"] none
      = Except.ok ([0, 1, 0, 2], [("A", 0), ("B", 1), ("C", 2)]) := by
  refine ⟨?_, preprocess_label_none_ok, by rfl⟩
  intro l
  unfold buildYDict enumDict
  rw [pandasUnique_eq_spec]

/-- Claim C8: the dictionary built by preprocess_label from a label table
is injective on the table's contrast values, the encoding of the table
with it succeeds, and decoding each produced code through the dictionary's
inverse mapping recovers the original contrast values exactly, in row
order. -/
theorem c8_dictionary_roundtrip (cs : List String) :
    (∀ a ∈ cs, ∀ b ∈ cs,
        dictLookup (buildYDict cs) a = dictLookup (buildYDict cs) b → a = b) ∧
    (∃ codes, applyYDict (buildYDict cs) cs = Except.ok codes ∧
      codes.map (invDictLookup (buildYDict cs)) = cs.map (fun x => some x)) := by
  constructor
  · intro a ha b hb hab
    obtain ⟨k, hk⟩ := Option.isSome_iff_exists.mp (buildYDict_isSome ha)
    have hgk : (pandasUnique cs).get? k = some a := dictLookup_enumDict_get hk
    rw [hab] at hk
    have hgk2 : (pandasUnique cs).get? k = some b := dictLookup_enumDict_get hk
    rw [hgk] at hgk2
    exact Option.some.inj hgk2
  · apply applyYDict_roundtrip_aux
    · intro x hx
      exact buildYDict_isSome hx
    · intro x _ k hk
      unfold buildYDict
      rw [invDictLookup_enumDict]
      exact dictLookup_enumDict_get hk

/-- Concrete run of c8_dictionary_roundtrip on the contrast sequence
A, B, A, C. -/
theorem c8_dictionary_roundtrip_witness :
    (∀ a ∈ ["A", "B", "A", "C"], ∀ b ∈ ["A", "B", "A", "C"],
        dictLookup (buildYDict ["A", "B", "A", "C"]) a
          = dictLookup (buildYDict ["A", "B", "A", "C"]) b → a = b) ∧
    (∃ codes, applyYDict (buildYDict ["A", "B", "A", "C"]) ["A", "B", "A", "C"]
        = Except.ok codes ∧
      codes.map (invDictLookup (buildYDict ["A", "B", "A", "C"]))
        = ["A", "B", "A", "C"].map (fun x => some x)) :=
  c8_dictionary_roundtrip ["A", "B", "A", "C"]

/-- Claim C9: a Classification Driver run with n_splits = 5 and the fixed
two-model catalog (LDA and RF) produces a results table, written once at
the end of the run, with columns method_name, algo, score, split and
exactly 10 rows — one per (model, split) pair — where each split index 0
through 4 appears exactly twice, once per model, and every row carries the
given method name. -/
theorem c9_results_table {S : Type} (methodName : String)
    (scoreFn : String → Nat → S) (labels : List Row) (trainSize : Nat) :
    (doClassifTable methodName scoreFn labels 5 trainSize).length = 10 ∧
    (doClassifTable methodName scoreFn labels 5 trainSize).map
        (fun r => (r.algo, r.split))
      = [("LDA", 0), ("LDA", 1), ("LDA", 2), ("LDA", 3), ("LDA", 4),
         ("RF", 0), ("RF", 1), ("RF", 2), ("RF", 3), ("RF", 4)] ∧
    (∀ s : Fin 5, ((doClassifTable methodName scoreFn labels 5 trainSize).map
        (fun r => r.split)).count s.val = 2) ∧
    (∀ r ∈ doClassifTable methodName scoreFn labels 5 trainSize,
        r.method_name = methodName) ∧
    resultColumns = ["method_name", "algo", "score", "split"] := by
  refine ⟨rfl, rfl, ?_, ?_, rfl⟩
  · intro s
    have hsplit : (doClassifTable methodName scoreFn labels 5 trainSize).map
        (fun r => r.split) = [0, 1, 2, 3, 4, 0, 1, 2, 3, 4] := rfl
    rw [hsplit]
    fin_cases s <;> rfl
  · intro r hr
    simp only [doClassifTable, List.mem_flatMap, List.mem_map] at hr
    obtain ⟨name, _, ⟨p, _, rfl⟩⟩ := hr
    rfl

/-- Concrete run of c9_results_table with method name aug, a constant
score function, an empty label table and train size 2. -/
theorem c9_results_table_witness :
    (doClassifTable "aug" (fun _ _ => (0 : Nat)) [] 5 2).length = 10 ∧
    (doClassifTable "aug" (fun _ _ => (0 : Nat)) [] 5 2).map
        (fun r => (r.algo, r.split))
      = [("LDA", 0), ("LDA", 1), ("LDA", 2), ("LDA", 3), ("LDA", 4),
         ("RF", 0), ("RF", 1), ("RF", 2), ("RF", 3), ("RF", 4)] ∧
    (∀ s : Fin 5, ((doClassifTable "aug" (fun _ _ => (0 : Nat)) [] 5 2).map
        (fun r => r.split)).count s.val = 2) ∧
    (∀ r ∈ doClassifTable "aug" (fun _ _ => (0 : Nat)) [] 5 2,
        r.method_name = "aug") ∧
    resultColumns = ["method_name", "algo", "score", "split"] :=
  c9_results_table "aug" (fun _ _ => (0 : Nat)) [] 2

end AISIP
